import Mathlib

/-!
# Verification of the headway progress tracker

A shallow embedding of the `tracker`, `ewma` and `probar` packages of the
`itchio/headway` Go library, together with proofs about the claims of its
specification.

Modelling conventions:
* Go `float64` values are modelled as exact rationals (`ℚ`); division by zero
  yields `0` in `ℚ` where Go would produce `±Inf`/`NaN`, and the theorems that
  depend on a quotient carry the positivity precondition explicitly.
* Go `time.Duration` is an `Int` of nanoseconds; `time.Time` is an `Int` of
  nanoseconds since an arbitrary epoch.  The wall clock reads performed by the
  methods (`time.Now()` / `time.Since(..)`) are passed in as an explicit `now`
  argument; the two reads inside a single method are identified.
* Mutation of the `tracker` struct becomes explicit state passing; the mutex
  serialises every method, so a method is a plain state transformer.
* Finish observers are identified by the order tokens they were registered
  with; invoking a callback is recorded by returning the list of invoked
  tokens.
-/

namespace Headway

/-- Truncation of a rational toward zero, the semantics of Go's
`float64` → `int64` conversion (used in `time.Duration(secondsLeft*1000.0)`). -/
def truncQ (q : ℚ) : ℤ := if q < 0 then ⌈q⌉ else ⌊q⌋

/-- `time.Duration.Seconds()`: nanoseconds to (exact) seconds. -/
def durSeconds (d : ℤ) : ℚ := (d : ℚ) / 1000000000

/-- `math.MaxFloat64 = (2^53 − 1) · 2^971`, the initial `minSpeed`, written
as the explicit integer so that it evaluates fast; `maxFloat64_eq` below
checks it against the closed form. -/
def maxFloat64 : ℚ := 179769313486231570814527423731704356798070567525844996598917476803157260780028538760589558632766878171540458953514382464234321326889464182768467546703537516986049910576551282076245490090389328944075868508455133942304583236903222948165808559332123348274797826204144723168738177180919299881250404026184124858368

namespace ewma

/-- `averageMetricAge float64 = 5.0` (package `ewma`). -/
def averageMetricAge : ℚ := 5

/-- `decay float64 = 2 / (averageMetricAge + 1)` (package `ewma`). -/
def decay : ℚ := 2 / (averageMetricAge + 1)

/-- The `average` struct of package `ewma`: a single scalar. -/
structure Average where
  value : ℚ
  deriving Repr, DecidableEq

/-- `ewma.New(initial)`. -/
def new (initial : ℚ) : Average := ⟨initial⟩

/-- `(*average).Add(value)`: cold start when the stored value is `0`,
otherwise exponential smoothing with the fixed decay factor. -/
def Average.add (a : Average) (value : ℚ) : Average :=
  if a.value = 0 then ⟨value⟩
  else ⟨value * decay + a.value * (1 - decay)⟩

/-- `(*average).Value()`. -/
def Average.valueFn (a : Average) : ℚ := a.value

end ewma

namespace tracker

/-- The `measurement` struct: the rolling (timestamp, value) anchor. -/
structure Measurement where
  time : ℤ
  value : ℚ
  deriving Repr, DecidableEq

/-- The mutable fields of the `tracker` struct (package `tracker`).
`onFinish` keeps the registration tokens of the observers. -/
structure Tracker where
  value : ℚ
  measurementInterval : ℤ
  paused : Bool
  onFinish : List ℕ
  duration : ℤ
  speed : ℚ
  minSpeed : ℚ
  maxSpeed : ℚ
  speedAverage : ewma.Average
  secondsLeftAverage : ewma.Average
  lastMeasurement : Option Measurement
  byteAmount : Option ℤ
  deriving Repr, DecidableEq

/-- The `Opts` struct configuring a tracker. -/
structure Opts where
  byteAmount : Option ℤ := none
  value : ℚ := 0
  measurementInterval : ℤ := 0
  deriving Repr, DecidableEq

/-- `(*Opts).ensureDefaults()`: a zero interval becomes one second. -/
def Opts.ensureDefaults (o : Opts) : Opts :=
  if o.measurementInterval = 0 then { o with measurementInterval := 1000000000 }
  else o

/-- `tracker.New(opts)`: the freshly started tracker state. -/
def new (opts : Opts) : Tracker :=
  let opts := opts.ensureDefaults
  { value := opts.value
    measurementInterval := opts.measurementInterval
    paused := false
    onFinish := []
    duration := 0
    speed := 0
    minSpeed := maxFloat64
    maxSpeed := 0
    speedAverage := ewma.new 0
    secondsLeftAverage := ewma.new 0
    lastMeasurement := none
    byteAmount := opts.byteAmount }

/-- `clamp(value)` (package `tracker`). -/
def clamp (value : ℚ) : ℚ :=
  if value > 1 then 1
  else if value < 0 then 0
  else value

/-- `(*tracker).lockedResetMeasurement()`. -/
def Tracker.lockedResetMeasurement (t : Tracker) : Tracker :=
  { t with
    lastMeasurement := none
    speed := 0
    minSpeed := maxFloat64
    maxSpeed := 0
    speedAverage := ewma.new 0
    secondsLeftAverage := ewma.new 0 }

/-- `(*tracker).lockedUpdateMeasurement(value)`; `now` is the wall clock. -/
def Tracker.lockedUpdateMeasurement (t : Tracker) (now : ℤ) (value : ℚ) : Tracker :=
  let t := if t.paused then t.lockedResetMeasurement else t
  match t.lastMeasurement with
  | none => { t with lastMeasurement := some ⟨now, value⟩ }
  | some lm =>
    let sinceLast := now - lm.time
    if sinceLast < t.measurementInterval then t
    else
      let t := { t with duration := t.duration + sinceLast }
      let valueDelta := value - lm.value
      if valueDelta < 0 then t.lockedResetMeasurement
      else
        let speed := valueDelta / durSeconds sinceLast
        let t := { t with speed := speed, speedAverage := t.speedAverage.add speed }
        let t := if speed > t.maxSpeed then { t with maxSpeed := speed } else t
        let t := if speed < t.minSpeed then { t with minSpeed := speed } else t
        let secondsLeft : ℚ := (1 - t.value) / t.speedAverage.value
        let t := { t with secondsLeftAverage := t.secondsLeftAverage.add secondsLeft }
        { t with lastMeasurement := some ⟨now, value⟩ }

/-- `(*tracker).SetProgress(value)`. -/
def Tracker.setProgress (t : Tracker) (now : ℤ) (value : ℚ) : Tracker :=
  let value := clamp value
  let t := t.lockedUpdateMeasurement now value
  { t with value := value }

/-- `(*tracker).Pause()`. -/
def Tracker.pause (t : Tracker) : Tracker :=
  Tracker.lockedResetMeasurement { t with paused := true }

/-- `(*tracker).Resume()`. -/
def Tracker.resume (t : Tracker) : Tracker :=
  Tracker.lockedResetMeasurement { t with paused := false }

/-- `(*tracker).Progress()`. -/
def Tracker.progress (t : Tracker) : ℚ := t.value

/-- `(*tracker).Duration()`. -/
def Tracker.durationFn (t : Tracker) : ℤ := t.duration

/-- `(*tracker).Paused()`. -/
def Tracker.pausedFn (t : Tracker) : Bool := t.paused

/-- `(*tracker).OnFinish(cb)`: append the registration token. -/
def Tracker.onFinishReg (t : Tracker) (cb : ℕ) : Tracker :=
  { t with onFinish := t.onFinish ++ [cb] }

/-- The `Stats` struct (`timeLeft` is a `*time.Duration` in nanoseconds). -/
structure Stats where
  value : ℚ
  speed : ℚ
  timeLeft : Option ℤ
  byteAmount : Option ℤ
  deriving Repr, DecidableEq

/-- `(*tracker).Stats()`: `none` models the `nil` return. -/
def Tracker.stats (t : Tracker) : Option Stats :=
  if t.speed = 0 ∨ t.lastMeasurement = none then none
  else
    let secondsLeft := (1 - t.value) / t.speedAverage.value
    let timeLeftVal : ℤ := 1000000 * truncQ (secondsLeft * 1000)
    let timeLeft : Option ℤ := if timeLeftVal < 0 then none else some timeLeftVal
    some ⟨t.value, t.speedAverage.value, timeLeft, t.byteAmount⟩

/-- The time-left field of the current snapshot, if any. -/
def Tracker.timeLeftOf (t : Tracker) : Option ℤ :=
  match t.stats with
  | none => none
  | some st => st.timeLeft

/-- The `CompletionStats` struct. -/
structure CompletionStats where
  duration : ℤ
  averageSpeed : ℚ
  minSpeed : ℚ
  maxSpeed : ℚ
  byteAmount : Option ℤ
  deriving Repr, DecidableEq

/-- Result of `(*tracker).Finish()`: the observers invoked (in order), the
returned `CompletionStats`, and the post state. -/
structure FinishResult where
  invoked : List ℕ
  completionStats : CompletionStats
  state : Tracker
  deriving Repr, DecidableEq

/-- `(*tracker).Finish()`: invokes every registered observer (no idempotence
guard in the source), flushes any open anchor interval into `duration`, and
builds the completion statistics. -/
def Tracker.finish (t : Tracker) (now : ℤ) : FinishResult :=
  let invoked := t.onFinish
  let t :=
    match t.lastMeasurement with
    | some lm => { t with duration := t.duration + (now - lm.time), lastMeasurement := none }
    | none => t
  { invoked := invoked
    completionStats :=
      { duration := t.duration
        averageSpeed := 1 / durSeconds t.duration
        minSpeed := t.minSpeed
        maxSpeed := t.maxSpeed
        byteAmount := t.byteAmount }
    state := t }

end tracker

namespace probar

/-- The fields of the `bar` struct that govern shutdown: the idempotence
flag, and event counters for `close(finishChan)` and `clear()` calls. -/
structure BarShutdown where
  finished : Bool
  chanCloses : ℕ
  clears : ℕ
  deriving Repr, DecidableEq

/-- A freshly constructed bar (`probar.New`): not finished, nothing closed
or cleared yet. -/
def BarShutdown.new : BarShutdown := ⟨false, 0, 0⟩

/-- `(*bar).finish()`: guarded by the `finished` flag; the first call closes
the finish channel and clears the bar line, later calls return immediately. -/
def BarShutdown.finish (b : BarShutdown) : BarShutdown :=
  if b.finished then b
  else { finished := true, chanCloses := b.chanCloses + 1, clears := b.clears + 1 }

/-- One pass of `(*bar).writer()`'s `select` loop over a schedule: each
entry tells whether this wake-up received the finish signal (`true`) or the
refresh timer (`false`).  Returns how many `update()` redraws happen after
the initial one; the loop returns as soon as the finish signal is observed. -/
def writerUpdates : List Bool → ℕ
  | [] => 0
  | b :: rest => if b then 0 else 1 + writerUpdates rest

end probar

namespace tracker

/-- The safety invariant of a tracker: the smoothed speed is never negative,
and whenever an instantaneous speed has been recorded (`speed ≠ 0`) the
smoothed speed is strictly positive and the current value is at most `1`.
It holds at construction and is preserved by every operation. -/
def Inv (t : Tracker) : Prop :=
  0 ≤ t.speedAverage.value ∧
    (t.speed ≠ 0 → 0 < t.speedAverage.value ∧ t.value ≤ 1)

/-- A concrete run with the default 1 s interval: samples `0` at `t = 0`
and `0.1` at `t = 1 s` (constant rate `0.1/s`). -/
def run2 : Tracker := ((new {}).setProgress 0 0).setProgress 1000000000 (1 / 10)

/-- A concrete run with a `0.5 ms` interval fed at the constant rate `1/s`:
samples `0.99` at `t = 0` and `0.9905` at `t = 0.5 ms`. -/
def fastRun2 : Tracker :=
  ((new { measurementInterval := 500000 }).setProgress 0 (99 / 100)).setProgress
    500000 (9905 / 10000)

/-- `fastRun2` after one more constant-rate sample: `0.991` at `t = 1 ms`. -/
def fastRun3 : Tracker := fastRun2.setProgress 1000000 (991 / 1000)

/-- A tracker anchored at value `0.6`, time `0`. -/
def anchored : Tracker := (new {}).setProgress 0 (6 / 10)

/-- A fresh tracker with two registered finish observers. -/
def twoObs : Tracker := ((new {}).onFinishReg 0).onFinishReg 1

end tracker

end Headway

namespace Headway

theorem maxFloat64_eq : maxFloat64 = ((2 : ℚ) ^ 53 - 1) * 2 ^ 971 := by
  norm_num [maxFloat64]

theorem truncQ_of_nonneg {q : ℚ} (h : 0 ≤ q) : truncQ q = ⌊q⌋ := by
  unfold truncQ
  rw [if_neg (not_lt.2 h)]

theorem truncQ_nonneg {q : ℚ} (h : 0 ≤ q) : 0 ≤ truncQ q := by
  rw [truncQ_of_nonneg h]
  exact Int.floor_nonneg.2 h

theorem durSeconds_nonneg {d : ℤ} (h : 0 ≤ d) : 0 ≤ durSeconds d := by
  unfold durSeconds
  positivity

theorem durSeconds_pos {d : ℤ} (h : 0 < d) : 0 < durSeconds d := by
  unfold durSeconds
  have : (0 : ℚ) < (d : ℚ) := by exact_mod_cast h
  positivity

namespace ewma

theorem decay_eq : decay = 1 / 3 := by
  norm_num [decay, averageMetricAge]

theorem Average.add_value (a : Average) (x : ℚ) :
    (a.add x).value = if a.value = 0 then x else x * decay + a.value * (1 - decay) := by
  unfold Average.add
  split <;> rfl

theorem Average.add_val_nonneg {a : Average} {x : ℚ}
    (ha : 0 ≤ a.value) (hx : 0 ≤ x) : 0 ≤ (a.add x).value := by
  rw [Average.add_value]
  split
  · exact hx
  · rw [decay_eq]
    nlinarith

theorem Average.add_val_pos {a : Average} {x : ℚ}
    (ha : 0 ≤ a.value) (hx : 0 < x) : 0 < (a.add x).value := by
  rw [Average.add_value]
  split
  · exact hx
  · rw [decay_eq]
    nlinarith

end ewma

namespace tracker

theorem clamp_nonneg (v : ℚ) : 0 ≤ clamp v := by
  unfold clamp
  split_ifs <;> linarith

theorem clamp_le_one (v : ℚ) : clamp v ≤ 1 := by
  unfold clamp
  split_ifs <;> linarith

theorem clamp_eq_self {v : ℚ} (h0 : 0 ≤ v) (h1 : v ≤ 1) : clamp v = v := by
  unfold clamp
  rw [if_neg (not_lt.2 h1), if_neg (not_lt.2 h0)]

end tracker

end Headway

namespace Headway.tracker

theorem setProgress_value (t : Tracker) (now : ℤ) (v : ℚ) :
    (t.setProgress now v).value = clamp v := rfl

theorem setProgress_paused (t : Tracker) (now : ℤ) (v : ℚ) (hp : t.paused = true) :
    t.setProgress now v =
      { t.lockedResetMeasurement with
        lastMeasurement := some ⟨now, clamp v⟩, value := clamp v } := by
  simp [Tracker.setProgress, Tracker.lockedUpdateMeasurement, hp,
    Tracker.lockedResetMeasurement]

theorem setProgress_anchor_none (t : Tracker) (now : ℤ) (v : ℚ)
    (hp : t.paused = false) (ha : t.lastMeasurement = none) :
    t.setProgress now v =
      { t with lastMeasurement := some ⟨now, clamp v⟩, value := clamp v } := by
  simp [Tracker.setProgress, Tracker.lockedUpdateMeasurement, hp, ha]

theorem setProgress_throttled (t : Tracker) (now : ℤ) (v : ℚ) (lm : Measurement)
    (hp : t.paused = false) (ha : t.lastMeasurement = some lm)
    (hi : now - lm.time < t.measurementInterval) :
    t.setProgress now v = { t with value := clamp v } := by
  simp [Tracker.setProgress, Tracker.lockedUpdateMeasurement, hp, ha, hi]

theorem setProgress_regress (t : Tracker) (now : ℤ) (v : ℚ) (lm : Measurement)
    (hp : t.paused = false) (ha : t.lastMeasurement = some lm)
    (hi : ¬ now - lm.time < t.measurementInterval)
    (hd : clamp v < lm.value) :
    t.setProgress now v =
      { Tracker.lockedResetMeasurement
          { t with duration := t.duration + (now - lm.time) } with
        value := clamp v } := by
  simp [Tracker.setProgress, Tracker.lockedUpdateMeasurement,
    Tracker.lockedResetMeasurement, hp, ha, hi, hd]

theorem setProgress_accepted (t : Tracker) (now : ℤ) (v : ℚ) (lm : Measurement)
    (hp : t.paused = false) (ha : t.lastMeasurement = some lm)
    (hi : ¬ now - lm.time < t.measurementInterval)
    (hd : ¬ clamp v < lm.value) :
    t.setProgress now v =
      { t with
        duration := t.duration + (now - lm.time)
        speed := (clamp v - lm.value) / durSeconds (now - lm.time)
        speedAverage := t.speedAverage.add ((clamp v - lm.value) / durSeconds (now - lm.time))
        maxSpeed :=
          if t.maxSpeed < (clamp v - lm.value) / durSeconds (now - lm.time) then
            (clamp v - lm.value) / durSeconds (now - lm.time)
          else t.maxSpeed
        minSpeed :=
          if (clamp v - lm.value) / durSeconds (now - lm.time) < t.minSpeed then
            (clamp v - lm.value) / durSeconds (now - lm.time)
          else t.minSpeed
        secondsLeftAverage :=
          t.secondsLeftAverage.add
            ((1 - t.value) /
              (t.speedAverage.add ((clamp v - lm.value) / durSeconds (now - lm.time))).value)
        lastMeasurement := some ⟨now, clamp v⟩
        value := clamp v } := by
  simp [Tracker.setProgress, Tracker.lockedUpdateMeasurement, hp, ha, hi, hd]
  split_ifs <;> simp [ha]

end Headway.tracker

namespace Headway.tracker

theorem Inv_reset (t : Tracker) : Inv t.lockedResetMeasurement := by
  refine ⟨le_refl 0, fun h => absurd rfl h⟩

theorem Inv_new (opts : Opts) : Inv (new opts) := by
  refine ⟨le_refl 0, fun h => absurd rfl h⟩

theorem Inv_setProgress {t : Tracker} (now : ℤ) (v : ℚ) (h : Inv t)
    (hmono : ∀ lm, t.lastMeasurement = some lm → lm.time ≤ now) :
    Inv (t.setProgress now v) := by
  cases hpaused : t.paused with
  | true =>
    rw [setProgress_paused t now v hpaused]
    exact ⟨le_refl 0, fun hs => absurd rfl hs⟩
  | false =>
    cases ha : t.lastMeasurement with
    | none =>
      rw [setProgress_anchor_none t now v hpaused ha]
      exact ⟨h.1, fun hs => ⟨(h.2 hs).1, clamp_le_one v⟩⟩
    | some lm =>
      by_cases hi : now - lm.time < t.measurementInterval
      · rw [setProgress_throttled t now v lm hpaused ha hi]
        exact ⟨h.1, fun hs => ⟨(h.2 hs).1, clamp_le_one v⟩⟩
      · by_cases hd : clamp v < lm.value
        · rw [setProgress_regress t now v lm hpaused ha hi hd]
          exact ⟨le_refl 0, fun hs => absurd rfl hs⟩
        · rw [setProgress_accepted t now v lm hpaused ha hi hd]
          have h0 : (0:ℚ) ≤ clamp v - lm.value := by linarith [not_lt.1 hd]
          have hsec : (0:ℚ) ≤ durSeconds (now - lm.time) :=
            durSeconds_nonneg (by linarith [hmono lm ha])
          have hsp : (0:ℚ) ≤ (clamp v - lm.value) / durSeconds (now - lm.time) :=
            div_nonneg h0 hsec
          refine ⟨ewma.Average.add_val_nonneg h.1 hsp, fun hs => ⟨?_, clamp_le_one v⟩⟩
          have hpos : (0:ℚ) < (clamp v - lm.value) / durSeconds (now - lm.time) :=
            lt_of_le_of_ne hsp (Ne.symm hs)
          exact ewma.Average.add_val_pos h.1 hpos

theorem Inv_pause (t : Tracker) : Inv t.pause := Inv_reset _

theorem Inv_resume (t : Tracker) : Inv t.resume := Inv_reset _

theorem Inv_finish {t : Tracker} (now : ℤ) (h : Inv t) : Inv (t.finish now).state := by
  unfold Tracker.finish
  cases ha : t.lastMeasurement with
  | none => simpa [ha] using h
  | some lm =>
    simp only [ha]
    exact ⟨h.1, fun hs => h.2 hs⟩

theorem stats_none_iff (t : Tracker) :
    t.stats = none ↔ t.speed = 0 ∨ t.lastMeasurement = none := by
  unfold Tracker.stats
  split <;> simp_all

theorem stats_some {t : Tracker} {st : Stats} (h : t.stats = some st) :
    t.speed ≠ 0 ∧ st.value = t.value ∧ st.speed = t.speedAverage.value ∧
    st.byteAmount = t.byteAmount ∧
    st.timeLeft =
      (if 1000000 * truncQ ((1 - t.value) / t.speedAverage.value * 1000) < 0 then none
       else some (1000000 * truncQ ((1 - t.value) / t.speedAverage.value * 1000))) := by
  unfold Tracker.stats at h
  split at h
  · cases h
  · rename_i hcond
    rw [Option.some_inj] at h
    subst h
    exact ⟨fun hs => hcond (Or.inl hs), rfl, rfl, rfl, rfl⟩

end Headway.tracker

namespace Headway.tracker

theorem stats_eq_some {t : Tracker} {lm : Measurement} (hs : t.speed ≠ 0)
    (ha : t.lastMeasurement = some lm)
    (hsl : 0 ≤ (1 - t.value) / t.speedAverage.value) :
    t.stats = some ⟨t.value, t.speedAverage.value,
      some (1000000 * ⌊(1 - t.value) / t.speedAverage.value * 1000⌋), t.byteAmount⟩ := by
  unfold Tracker.stats
  rw [if_neg (by simp [hs, ha])]
  dsimp only
  rw [truncQ_of_nonneg (mul_nonneg hsl (by norm_num))]
  rw [if_neg (not_lt.2 (mul_nonneg (by norm_num)
    (Int.floor_nonneg.2 (mul_nonneg hsl (by norm_num)))))]

theorem timeLeftOf_eq_some {t : Tracker} {lm : Measurement} (hs : t.speed ≠ 0)
    (ha : t.lastMeasurement = some lm)
    (hsl : 0 ≤ (1 - t.value) / t.speedAverage.value) :
    t.timeLeftOf = some (1000000 * ⌊(1 - t.value) / t.speedAverage.value * 1000⌋) := by
  unfold Tracker.timeLeftOf
  rw [stats_eq_some hs ha hsl]

end Headway.tracker

namespace Headway.tracker

/-- **C3** (amended).  One constant-rate step: a tracker in the constant-rate
regime (anchored at `(τ, u)` with current value `u`, recorded speed, and a
smoothed speed equal to the constant rate `r > 0`) that accepts the next
constant-rate sample `w = u + r·Δt` emits two consecutive non-`None`
snapshots whose `TimeLeft` values strictly decrease — provided the gap `Δt`
is at least one millisecond (`1000000` ns).  The millisecond bound is the
amendment: `Stats` truncates the time left to whole milliseconds, so with a
sub-millisecond measurement interval two consecutive snapshots can report
equal `TimeLeft` (see the counterexample). -/
theorem C3_timeleft_strictly_decreases (t : Tracker) (τ : ℤ) (u r : ℚ) (now : ℤ) (w : ℚ)
    (hp : t.paused = false)
    (ha : t.lastMeasurement = some ⟨τ, u⟩)
    (hv : t.value = u) (hu0 : 0 ≤ u)
    (hs : t.speed ≠ 0)
    (havg : t.speedAverage = ewma.new r) (hr : 0 < r)
    (hint : t.measurementInterval ≤ now - τ)
    (hms : 1000000 ≤ now - τ)
    (hw : w = u + r * durSeconds (now - τ)) (hw1 : w ≤ 1) :
    ∃ d d' : ℤ, t.timeLeftOf = some d ∧ (t.setProgress now w).timeLeftOf = some d' ∧ d' < d := by
  have hgapZ : (0:ℤ) < now - τ := by linarith
  have hgap : (0:ℚ) < durSeconds (now - τ) := durSeconds_pos hgapZ
  have hwu : u < w := by rw [hw]; nlinarith
  have hw0 : (0:ℚ) ≤ w := le_trans hu0 (le_of_lt hwu)
  have hclamp : clamp w = w := clamp_eq_self hw0 hw1
  have hu1 : u ≤ 1 := le_trans (le_of_lt hwu) hw1
  have havgv : t.speedAverage.value = r := by rw [havg]; rfl
  have hsl : 0 ≤ (1 - t.value) / t.speedAverage.value := by
    rw [hv, havgv]
    exact div_nonneg (by linarith) (le_of_lt hr)
  have hd1 : t.timeLeftOf = some (1000000 * ⌊(1 - u) / r * 1000⌋) := by
    have h0 := timeLeftOf_eq_some hs ha hsl
    rw [hv, havgv] at h0
    exact h0
  have hnd : ¬ clamp w < (Measurement.mk τ u).value := by
    rw [hclamp]
    exact not_lt.2 (le_of_lt hwu)
  have hni : ¬ now - (Measurement.mk τ u).time < t.measurementInterval := not_lt.2 hint
  have ht' := setProgress_accepted t now w ⟨τ, u⟩ hp ha hni hnd
  have hspeedval : (clamp w - u) / durSeconds (now - τ) = r := by
    rw [hclamp, hw]
    have h1 : u + r * durSeconds (now - τ) - u = r * durSeconds (now - τ) := by ring
    rw [h1]
    exact mul_div_cancel_right₀ r (ne_of_gt hgap)
  have hspeed' : (t.setProgress now w).speed = r := by
    rw [ht']
    exact hspeedval
  have havg' : (t.setProgress now w).speedAverage.value = r := by
    rw [ht']
    show (t.speedAverage.add ((clamp w - u) / durSeconds (now - τ))).value = r
    rw [hspeedval, havg, ewma.Average.add_value]
    rw [if_neg (show (ewma.new r).value ≠ 0 from ne_of_gt hr)]
    rw [ewma.decay_eq]
    show r * (1/3) + r * (1 - 1/3) = r
    ring
  have hval' : (t.setProgress now w).value = w := by
    rw [setProgress_value, hclamp]
  have hanch' : (t.setProgress now w).lastMeasurement = some ⟨now, clamp w⟩ := by
    rw [ht']
  have hs' : (t.setProgress now w).speed ≠ 0 := by
    rw [hspeed']
    exact ne_of_gt hr
  have hsl' : 0 ≤ (1 - (t.setProgress now w).value) / (t.setProgress now w).speedAverage.value := by
    rw [hval', havg']
    exact div_nonneg (by linarith) (le_of_lt hr)
  have hd2 : (t.setProgress now w).timeLeftOf = some (1000000 * ⌊(1 - w) / r * 1000⌋) := by
    have h0 := timeLeftOf_eq_some hs' hanch' hsl'
    rw [hval', havg'] at h0
    exact h0
  have hcast : (1000000 : ℚ) ≤ ((now - τ : ℤ) : ℚ) := by exact_mod_cast hms
  have hexp : (1 - w) / r = (1 - u) / r - ((now - τ : ℤ) : ℚ) / 1000000000 := by
    rw [hw]
    unfold durSeconds
    field_simp
    ring
  have hdiff : (1 - w) / r * 1000 + 1 ≤ (1 - u) / r * 1000 := by
    rw [hexp]
    have : (1:ℚ) ≤ ((now - τ : ℤ) : ℚ) / 1000000000 * 1000 := by
      rw [div_mul_eq_mul_div, le_div_iff₀ (by norm_num : (0:ℚ) < 1000000000)]
      linarith
    linarith [this]
  have hfl : ⌊(1 - w) / r * 1000⌋ < ⌊(1 - u) / r * 1000⌋ := by
    have h1 : ⌊(1 - w) / r * 1000⌋ + 1 = ⌊(1 - w) / r * 1000 + 1⌋ := (Int.floor_add_one _).symm
    have h2 : ⌊(1 - w) / r * 1000 + 1⌋ ≤ ⌊(1 - u) / r * 1000⌋ := Int.floor_le_floor hdiff
    omega
  refine ⟨_, _, hd1, hd2, ?_⟩
  exact mul_lt_mul_of_pos_left hfl (by norm_num)

end Headway.tracker

namespace Headway.tracker

theorem anchored_eq :
    anchored =
      { value := 3 / 5, measurementInterval := 1000000000, paused := false, onFinish := [],
        duration := 0, speed := 0, minSpeed := maxFloat64, maxSpeed := 0,
        speedAverage := ⟨0⟩, secondsLeftAverage := ⟨0⟩,
        lastMeasurement := some ⟨0, 3 / 5⟩, byteAmount := none } := by
  norm_num [anchored, new, Opts.ensureDefaults, Tracker.setProgress,
    Tracker.lockedUpdateMeasurement, Tracker.lockedResetMeasurement, clamp, durSeconds,
    ewma.Average.add, ewma.new, ewma.decay, ewma.averageMetricAge, maxFloat64]

theorem run2_eq :
    run2 =
      { value := 1 / 10, measurementInterval := 1000000000, paused := false, onFinish := [],
        duration := 1000000000, speed := 1 / 10, minSpeed := 1 / 10, maxSpeed := 1 / 10,
        speedAverage := ⟨1 / 10⟩, secondsLeftAverage := ⟨10⟩,
        lastMeasurement := some ⟨1000000000, 1 / 10⟩, byteAmount := none } := by
  norm_num [run2, new, Opts.ensureDefaults, Tracker.setProgress,
    Tracker.lockedUpdateMeasurement, Tracker.lockedResetMeasurement, clamp, durSeconds,
    ewma.Average.add, ewma.new, ewma.decay, ewma.averageMetricAge, maxFloat64]

theorem fastRun2_eq :
    fastRun2 =
      { value := 1981 / 2000, measurementInterval := 500000, paused := false, onFinish := [],
        duration := 500000, speed := 1, minSpeed := 1, maxSpeed := 1,
        speedAverage := ⟨1⟩, secondsLeftAverage := ⟨1 / 100⟩,
        lastMeasurement := some ⟨500000, 1981 / 2000⟩, byteAmount := none } := by
  norm_num [fastRun2, new, Opts.ensureDefaults, Tracker.setProgress,
    Tracker.lockedUpdateMeasurement, Tracker.lockedResetMeasurement, clamp, durSeconds,
    ewma.Average.add, ewma.new, ewma.decay, ewma.averageMetricAge, maxFloat64]

theorem fastRun3_eq :
    fastRun3 =
      { value := 991 / 1000, measurementInterval := 500000, paused := false, onFinish := [],
        duration := 1000000, speed := 1, minSpeed := 1, maxSpeed := 1,
        speedAverage := ⟨1⟩, secondsLeftAverage := ⟨59 / 6000⟩,
        lastMeasurement := some ⟨1000000, 991 / 1000⟩, byteAmount := none } := by
  norm_num [fastRun3, fastRun2_eq, Tracker.setProgress,
    Tracker.lockedUpdateMeasurement, Tracker.lockedResetMeasurement, clamp, durSeconds,
    ewma.Average.add, ewma.new, ewma.decay, ewma.averageMetricAge, maxFloat64]

theorem run2_timeLeftOf : run2.timeLeftOf = some 9000000000 := by
  have h := @timeLeftOf_eq_some run2 ⟨1000000000, 1 / 10⟩
    (by rw [run2_eq]; norm_num) (by rw [run2_eq]) (by rw [run2_eq]; norm_num)
  rw [run2_eq] at h ⊢
  norm_num at h
  rw [h]

theorem fastRun2_timeLeftOf : fastRun2.timeLeftOf = some 9000000 := by
  have h := @timeLeftOf_eq_some fastRun2 ⟨500000, 1981 / 2000⟩
    (by rw [fastRun2_eq]; norm_num) (by rw [fastRun2_eq]) (by rw [fastRun2_eq]; norm_num)
  rw [fastRun2_eq] at h ⊢
  norm_num at h
  rw [h]

theorem fastRun3_timeLeftOf : fastRun3.timeLeftOf = some 9000000 := by
  have h := @timeLeftOf_eq_some fastRun3 ⟨1000000, 991 / 1000⟩
    (by rw [fastRun3_eq]; norm_num) (by rw [fastRun3_eq]) (by rw [fastRun3_eq]; norm_num)
  rw [fastRun3_eq] at h ⊢
  norm_num at h
  rw [h]

end Headway.tracker

namespace Headway.tracker

theorem run2_stats :
    run2.stats = some ⟨1 / 10, 1 / 10, some 9000000000, none⟩ := by
  have h := @stats_eq_some run2 ⟨1000000000, 1 / 10⟩
    (by rw [run2_eq]; norm_num) (by rw [run2_eq]) (by rw [run2_eq]; norm_num)
  rw [run2_eq] at h ⊢
  norm_num at h
  rw [h]

theorem Inv_run2 : Inv run2 := by
  rw [run2_eq]
  exact ⟨by norm_num, fun _ => ⟨by norm_num, by norm_num⟩⟩

/-- **C1** (code-bug evidence).  With two observers registered, the first
`Finish()` invokes them in registration order, and the second `Finish()`
invokes them all over again — the source has no idempotence guard, so the
spec's "each observer exactly once across two calls" fails.  The duration
half of the claim does hold: the second call leaves `duration` unchanged
because the first call cleared the anchor. -/
theorem C1_finish_twice_reinvokes_observers :
    (twoObs.finish 5000000000).invoked = [0, 1] ∧
    ((twoObs.finish 5000000000).state.finish 6000000000).invoked = [0, 1] ∧
    ((twoObs.finish 5000000000).state.finish 6000000000).state.duration =
      (twoObs.finish 5000000000).state.duration := ⟨rfl, rfl, rfl⟩

/-- **C2** counterexample: at value `0.6`, a regression sample `0.3` arriving
two seconds later (≥ the 1 s interval) leaves `lastMeasurement = none` — the
anchor is cleared, not replaced by the fresh sample `(now, 0.3)` as the
claim states. -/
theorem C2_regression_clears_anchor_cx :
    anchored.lastMeasurement = some ⟨0, 3 / 5⟩ ∧
    (anchored.setProgress 2000000000 (3 / 10)).lastMeasurement = none ∧
    (anchored.setProgress 2000000000 (3 / 10)).lastMeasurement ≠
      some ⟨2000000000, 3 / 10⟩ := by
  have h := setProgress_regress anchored 2000000000 (3 / 10) ⟨0, 3 / 5⟩
    (by rw [anchored_eq]) (by rw [anchored_eq]) (by rw [anchored_eq]; norm_num)
    (by norm_num [clamp])
  refine ⟨by rw [anchored_eq], by rw [h]; rfl, by rw [h]; simp [Tracker.lockedResetMeasurement]⟩

/-- **C2** (amended).  A regression sample arriving at least one interval
after the anchor triggers a full reset — speed zeroed, extrema re-armed,
both moving averages emptied — and emits no rate; but the anchor is cleared
to `None` (the next sample will re-anchor) rather than being replaced by
the new sample, and the elapsed interval is still added to `duration`. -/
theorem C2_regression_full_reset (t : Tracker) (now : ℤ) (v : ℚ) (lm : Measurement)
    (hp : t.paused = false) (ha : t.lastMeasurement = some lm)
    (hi : t.measurementInterval ≤ now - lm.time) (hd : clamp v < lm.value) :
    (t.setProgress now v).speed = 0 ∧
    (t.setProgress now v).minSpeed = maxFloat64 ∧
    (t.setProgress now v).maxSpeed = 0 ∧
    (t.setProgress now v).speedAverage = ewma.new 0 ∧
    (t.setProgress now v).secondsLeftAverage = ewma.new 0 ∧
    (t.setProgress now v).lastMeasurement = none ∧
    (t.setProgress now v).value = clamp v ∧
    (t.setProgress now v).duration = t.duration + (now - lm.time) := by
  rw [setProgress_regress t now v lm hp ha (not_lt.2 hi) hd]
  exact ⟨rfl, rfl, rfl, rfl, rfl, rfl, rfl, rfl⟩

/-- Witness for `C2_regression_full_reset` at a concrete input. -/
theorem C2_regression_full_reset_witness :
    (anchored.setProgress 2000000000 (3 / 10)).speed = 0 ∧
    (anchored.setProgress 2000000000 (3 / 10)).minSpeed = maxFloat64 ∧
    (anchored.setProgress 2000000000 (3 / 10)).maxSpeed = 0 ∧
    (anchored.setProgress 2000000000 (3 / 10)).speedAverage = ewma.new 0 ∧
    (anchored.setProgress 2000000000 (3 / 10)).secondsLeftAverage = ewma.new 0 ∧
    (anchored.setProgress 2000000000 (3 / 10)).lastMeasurement = none ∧
    (anchored.setProgress 2000000000 (3 / 10)).value = clamp (3 / 10) ∧
    (anchored.setProgress 2000000000 (3 / 10)).duration =
      anchored.duration + (2000000000 - 0) :=
  C2_regression_full_reset anchored 2000000000 (3 / 10) ⟨0, 3 / 5⟩
    (by rw [anchored_eq]) (by rw [anchored_eq]) (by rw [anchored_eq]; norm_num)
    (by norm_num [clamp])

/-- **C3** counterexample: with a `0.5 ms` measurement interval and samples
fed at the constant rate `1/s` exactly one interval apart (values `0.99`,
`0.9905`, `0.991`), two successive snapshots are non-`None` but report the
same `TimeLeft` of 9 ms — `Stats` truncates to whole milliseconds, so the
claimed strict decrease fails. -/
theorem C3_equal_timeleft_cx :
    fastRun2.timeLeftOf = some 9000000 ∧
    fastRun3.timeLeftOf = some 9000000 ∧
    fastRun2.value < fastRun3.value ∧
    fastRun2.speed = 1 ∧ fastRun3.speed = 1 := by
  refine ⟨fastRun2_timeLeftOf, fastRun3_timeLeftOf, ?_, ?_, ?_⟩
  · rw [fastRun2_eq, fastRun3_eq]; norm_num
  · rw [fastRun2_eq]
  · rw [fastRun3_eq]

/-- Witness for `C3_timeleft_strictly_decreases` at a concrete input:
`run2` (constant rate `0.1/s`, default 1 s interval) stepped to `0.2`. -/
theorem C3_timeleft_strictly_decreases_witness :
    ∃ d d' : ℤ, run2.timeLeftOf = some d ∧
      (run2.setProgress 2000000000 (2 / 10)).timeLeftOf = some d' ∧ d' < d :=
  C3_timeleft_strictly_decreases run2 1000000000 (1 / 10) (1 / 10) 2000000000 (2 / 10)
    (by rw [run2_eq]) (by rw [run2_eq]) (by rw [run2_eq]) (by norm_num)
    (by rw [run2_eq]; norm_num) (by rw [run2_eq]; rfl) (by norm_num)
    (by rw [run2_eq]; norm_num) (by norm_num)
    (by norm_num [durSeconds]) (by norm_num)

end Headway.tracker

namespace Headway.tracker

/-- **C4** (confirmed).  Under the tracker invariant `Inv` (established at
construction and preserved by every operation — see
`C10_stats_implies_positive_speed`), `Stats()` returns `None` exactly when
the instantaneous speed is `0` or the anchor is absent; otherwise the
snapshot carries the smoothed (EWMA) speed, the current value and the
configured byte amount, and its time-left is `None` iff the recomputed
`(1-value)/speedAverage` is negative (on reachable states both sides are
false: the quotient is never negative there, so time-left is always
present in a snapshot). -/
theorem C4_stats_characterization (t : Tracker) (h : Inv t) :
    (t.stats = none ↔ t.speed = 0 ∨ t.lastMeasurement = none) ∧
    ∀ st : Stats, t.stats = some st →
      st.speed = t.speedAverage.value ∧ st.value = t.value ∧
      st.byteAmount = t.byteAmount ∧
      (st.timeLeft = none ↔ (1 - t.value) / t.speedAverage.value < 0) := by
  refine ⟨stats_none_iff t, fun st hst => ?_⟩
  obtain ⟨hs, hv, hsp, hb, htl⟩ := stats_some hst
  have havg := (h.2 hs).1
  have hval := (h.2 hs).2
  have hsl : 0 ≤ (1 - t.value) / t.speedAverage.value :=
    div_nonneg (by linarith) (le_of_lt havg)
  refine ⟨hsp, hv, hb, ?_⟩
  rw [htl]
  have h1000 : 0 ≤ (1 - t.value) / t.speedAverage.value * 1000 :=
    mul_nonneg hsl (by norm_num)
  rw [truncQ_of_nonneg h1000,
    if_neg (not_lt.2 (mul_nonneg (by norm_num) (Int.floor_nonneg.2 h1000)))]
  exact iff_of_false (by simp) (not_lt.2 hsl)

/-- Witness for `C4_stats_characterization` at the concrete tracker `run2`. -/
theorem C4_stats_characterization_witness :
    (Stats.mk (1 / 10) (1 / 10) (some 9000000000) none).speed =
      run2.speedAverage.value ∧
    (Stats.mk (1 / 10) (1 / 10) (some 9000000000) none).value = run2.value ∧
    (Stats.mk (1 / 10) (1 / 10) (some 9000000000) none).byteAmount =
      run2.byteAmount ∧
    ((Stats.mk (1 / 10) (1 / 10) (some 9000000000) none).timeLeft = none ↔
      (1 - run2.value) / run2.speedAverage.value < 0) :=
  (C4_stats_characterization run2 Inv_run2).2
    (Stats.mk (1 / 10) (1 / 10) (some 9000000000) none) run2_stats

/-- **C5** counterexample: `New` stores `Opts.Value` without clamping, so a
tracker constructed with initial value `1.7` reports `Progress() = 1.7`,
outside `[0,1]`, until the first `SetProgress`. -/
theorem C5_new_does_not_clamp_cx :
    (new { value := 17 / 10 }).progress = 17 / 10 ∧
    ¬ (new { value := 17 / 10 }).progress ≤ 1 := by
  constructor
  · rfl
  · show ¬ (17 / 10 : ℚ) ≤ 1
    norm_num

/-- **C5** (amended).  `SetProgress(v)` stores `clamp(v) ∈ [0,1]` — in
particular `SetProgress(-0.5)` yields `0` and `SetProgress(1.7)` yields `1`
— and `Pause`/`Resume`/`Finish` never change the value, so `Progress()`
stays in `[0,1]` from the first `SetProgress` on.  The amendment: the
constructor itself does not clamp `Opts.Value` (see the counterexample),
so "always in `[0,1]` after any sequence of operations" only holds once a
`SetProgress` has occurred (or when the initial value is in range). -/
theorem C5_setProgress_clamps :
    (∀ (t : Tracker) (now : ℤ) (v : ℚ), (t.setProgress now v).progress = clamp v) ∧
    (∀ v : ℚ, 0 ≤ clamp v ∧ clamp v ≤ 1) ∧
    (∀ t : Tracker, t.pause.progress = t.progress ∧ t.resume.progress = t.progress) ∧
    (∀ (t : Tracker) (now : ℤ), (t.finish now).state.progress = t.progress) ∧
    (∀ (t : Tracker) (now : ℤ), (t.setProgress now (-(1 / 2))).progress = 0) ∧
    (∀ (t : Tracker) (now : ℤ), (t.setProgress now (17 / 10)).progress = 1) := by
  refine ⟨fun t now v => rfl, fun v => ⟨clamp_nonneg v, clamp_le_one v⟩,
    fun t => ⟨rfl, rfl⟩, fun t now => ?_, fun t now => ?_, fun t now => ?_⟩
  · unfold Tracker.finish Tracker.progress
    cases t.lastMeasurement <;> rfl
  · show clamp (-(1 / 2)) = 0
    norm_num [clamp]
  · show clamp (17 / 10) = 1
    norm_num [clamp]

/-- **C6** (confirmed).  A sample arriving strictly less than one
measurement interval after the anchor of an unpaused tracker only changes
the current value (to the clamped sample); speed, extrema, duration, both
moving averages and the anchor are untouched. -/
theorem C6_throttled_only_value (t : Tracker) (now : ℤ) (v : ℚ) (lm : Measurement)
    (hp : t.paused = false) (ha : t.lastMeasurement = some lm)
    (hi : now - lm.time < t.measurementInterval) :
    t.setProgress now v = { t with value := clamp v } ∧
    (t.setProgress now v).value = clamp v ∧
    (t.setProgress now v).speed = t.speed ∧
    (t.setProgress now v).minSpeed = t.minSpeed ∧
    (t.setProgress now v).maxSpeed = t.maxSpeed ∧
    (t.setProgress now v).duration = t.duration ∧
    (t.setProgress now v).speedAverage = t.speedAverage ∧
    (t.setProgress now v).secondsLeftAverage = t.secondsLeftAverage ∧
    (t.setProgress now v).lastMeasurement = t.lastMeasurement := by
  have h := setProgress_throttled t now v lm hp ha hi
  rw [h]
  exact ⟨rfl, rfl, rfl, rfl, rfl, rfl, rfl, rfl, rfl⟩

/-- Witness for `C6_throttled_only_value` at a concrete input (sample
`0.5 ms` after the anchor, with a 1 s interval). -/
theorem C6_throttled_only_value_witness :
    anchored.setProgress 500000 (7 / 10) = { anchored with value := clamp (7 / 10) } ∧
    (anchored.setProgress 500000 (7 / 10)).value = clamp (7 / 10) ∧
    (anchored.setProgress 500000 (7 / 10)).speed = anchored.speed ∧
    (anchored.setProgress 500000 (7 / 10)).minSpeed = anchored.minSpeed ∧
    (anchored.setProgress 500000 (7 / 10)).maxSpeed = anchored.maxSpeed ∧
    (anchored.setProgress 500000 (7 / 10)).duration = anchored.duration ∧
    (anchored.setProgress 500000 (7 / 10)).speedAverage = anchored.speedAverage ∧
    (anchored.setProgress 500000 (7 / 10)).secondsLeftAverage =
      anchored.secondsLeftAverage ∧
    (anchored.setProgress 500000 (7 / 10)).lastMeasurement =
      anchored.lastMeasurement :=
  C6_throttled_only_value anchored 500000 (7 / 10) ⟨0, 3 / 5⟩
    (by rw [anchored_eq]) (by rw [anchored_eq]) (by rw [anchored_eq]; norm_num)

end Headway.tracker

namespace Headway.ewma

/-- **C7** (confirmed).  `Add(x)` on a zero current value stores exactly `x`
(cold start, by value, also when `0` was reached as a smoothed value);
on a nonzero current value it stores `x·decay + value·(1-decay)` with
`decay = 2/(5+1) = 1/3`; `Value()` returns the stored value. -/
theorem C7_average_add_spec (a : Average) (x : ℚ) :
    (a.value = 0 → (a.add x).value = x) ∧
    (a.value ≠ 0 → (a.add x).value = x * decay + a.value * (1 - decay)) ∧
    decay = 2 / (5 + 1) ∧ decay = 1 / 3 ∧ a.valueFn = a.value := by
  refine ⟨fun h => ?_, fun h => ?_,
    by norm_num [decay, averageMetricAge], decay_eq, rfl⟩
  · rw [Average.add_value, if_pos h]
  · rw [Average.add_value, if_neg h]

/-- Witness for `C7_average_add_spec`: a cold start stores `5` exactly, and
a warm add smooths with decay `1/3`. -/
theorem C7_average_add_spec_witness :
    ((new 0).add 5).value = 5 ∧
    ((new 2).add 5).value = 5 * decay + 2 * (1 - decay) :=
  ⟨(C7_average_add_spec (new 0) 5).1 rfl,
   (C7_average_add_spec (new 2) 5).2.1 (by norm_num [new])⟩

end Headway.ewma

namespace Headway.tracker

/-- **C8** (confirmed).  `Finish()` flushes any open anchor interval into
`duration` (clearing the anchor; with no anchor the duration is unchanged),
and the returned `CompletionStats` carries that final duration, the
whole-run average speed `1 / duration.Seconds()` (distinct from the EWMA
speed of `Stats`), the lifetime extrema and the byte amount; the average is
meaningful (positive) exactly under the documented precondition that the
final duration is positive. -/
theorem finish_none {t : Tracker} (now : ℤ) (ha : t.lastMeasurement = none) :
    t.finish now =
      ⟨t.onFinish,
       ⟨t.duration, 1 / durSeconds t.duration, t.minSpeed, t.maxSpeed, t.byteAmount⟩,
       t⟩ := by
  unfold Tracker.finish
  rw [ha]

theorem finish_some {t : Tracker} {lm : Measurement} (now : ℤ)
    (ha : t.lastMeasurement = some lm) :
    t.finish now =
      ⟨t.onFinish,
       ⟨t.duration + (now - lm.time), 1 / durSeconds (t.duration + (now - lm.time)),
        t.minSpeed, t.maxSpeed, t.byteAmount⟩,
       { t with duration := t.duration + (now - lm.time), lastMeasurement := none }⟩ := by
  unfold Tracker.finish
  rw [ha]

theorem C8_finish_completion_stats (t : Tracker) (now : ℤ) :
    (t.finish now).completionStats.averageSpeed =
      1 / durSeconds (t.finish now).state.duration ∧
    (t.finish now).completionStats.duration = (t.finish now).state.duration ∧
    (∀ lm, t.lastMeasurement = some lm →
      (t.finish now).state.duration = t.duration + (now - lm.time) ∧
      (t.finish now).state.lastMeasurement = none) ∧
    (t.lastMeasurement = none → (t.finish now).state.duration = t.duration) ∧
    (t.finish now).completionStats.minSpeed = t.minSpeed ∧
    (t.finish now).completionStats.maxSpeed = t.maxSpeed ∧
    (t.finish now).completionStats.byteAmount = t.byteAmount ∧
    (0 < (t.finish now).state.duration →
      0 < (t.finish now).completionStats.averageSpeed) := by
  cases ha : t.lastMeasurement with
  | none =>
    rw [finish_none now ha]
    refine ⟨rfl, rfl, fun lm hlm => ?_, fun _ => rfl, rfl, rfl, rfl,
      fun hd => one_div_pos.2 (durSeconds_pos hd)⟩
    cases hlm
  | some lm =>
    rw [finish_some now ha]
    refine ⟨rfl, rfl, fun lm' hlm => ?_, fun hn => ?_, rfl, rfl, rfl,
      fun hd => one_div_pos.2 (durSeconds_pos hd)⟩
    · rw [Option.some_inj] at hlm
      subst hlm
      exact ⟨rfl, rfl⟩
    · cases hn

/-- Witness for `C8_finish_completion_stats` at a concrete input: finishing
`anchored` two seconds in flushes the open interval and reports a positive
whole-run average speed. -/
theorem C8_finish_completion_stats_witness :
    (anchored.finish 2000000000).completionStats.averageSpeed =
      1 / durSeconds (anchored.finish 2000000000).state.duration ∧
    (anchored.finish 2000000000).state.duration =
      anchored.duration + (2000000000 - 0) ∧
    (anchored.finish 2000000000).state.lastMeasurement = none ∧
    0 < (anchored.finish 2000000000).completionStats.averageSpeed := by
  have h := C8_finish_completion_stats anchored 2000000000
  have hlm := h.2.2.1 ⟨0, 3 / 5⟩ (by rw [anchored_eq])
  refine ⟨h.1, hlm.1, hlm.2, h.2.2.2.2.2.2.2 ?_⟩
  rw [hlm.1, anchored_eq]
  norm_num

end Headway.tracker

namespace Headway.probar

theorem finish_of_finished {b : BarShutdown} (h : b.finished = true) :
    b.finish = b := by
  unfold BarShutdown.finish
  rw [h]
  simp

theorem iterate_finish_of_finished (n : ℕ) {b : BarShutdown}
    (h : b.finished = true) : Nat.iterate BarShutdown.finish n b = b := by
  induction n with
  | zero => rfl
  | succ k ih => rw [Function.iterate_succ_apply, finish_of_finished h, ih]

theorem writerUpdates_stops (s1 s2 : List Bool) :
    writerUpdates (s1 ++ true :: s2) = writerUpdates (s1 ++ [true]) := by
  induction s1 with
  | nil => rfl
  | cons b rest ih => simp [writerUpdates, ih]

/-- **C9** (confirmed).  The bar's finish handler is idempotent: a finished
bar is left untouched (no second clear, no second channel close), the first
call closes the channel and clears the line exactly once, any number of
further invocations keep both counters at one, and the redraw loop performs
no update after the wake-up at which it observes the finish signal. -/
theorem C9_bar_shutdown_idempotent :
    (∀ b : BarShutdown, b.finished = true → b.finish = b) ∧
    (∀ b : BarShutdown, b.finished = false →
      b.finish = ⟨true, b.chanCloses + 1, b.clears + 1⟩) ∧
    (∀ n : ℕ,
      (Nat.iterate BarShutdown.finish (n + 1) BarShutdown.new).finished = true ∧
      (Nat.iterate BarShutdown.finish (n + 1) BarShutdown.new).chanCloses = 1 ∧
      (Nat.iterate BarShutdown.finish (n + 1) BarShutdown.new).clears = 1) ∧
    (∀ s1 s2 : List Bool,
      writerUpdates (s1 ++ true :: s2) = writerUpdates (s1 ++ [true])) := by
  refine ⟨fun b h => finish_of_finished h, fun b h => ?_, fun n => ?_,
    writerUpdates_stops⟩
  · unfold BarShutdown.finish
    rw [h]
    simp
  · have h1 : Nat.iterate BarShutdown.finish (n + 1) BarShutdown.new =
        Nat.iterate BarShutdown.finish n (BarShutdown.finish BarShutdown.new) :=
      Function.iterate_succ_apply _ _ _
    have h2 : BarShutdown.finish BarShutdown.new = ⟨true, 1, 1⟩ := rfl
    rw [h1, h2, iterate_finish_of_finished n rfl]
    exact ⟨rfl, rfl, rfl⟩

/-- Witness for `C9_bar_shutdown_idempotent` at concrete inputs. -/
theorem C9_bar_shutdown_idempotent_witness :
    BarShutdown.finish ⟨true, 1, 1⟩ = ⟨true, 1, 1⟩ ∧
    (Nat.iterate BarShutdown.finish 3 BarShutdown.new).clears = 1 ∧
    writerUpdates ([false] ++ true :: [false, false]) =
      writerUpdates ([false] ++ [true]) :=
  ⟨C9_bar_shutdown_idempotent.1 ⟨true, 1, 1⟩ rfl,
   (C9_bar_shutdown_idempotent.2.2.1 2).2.2,
   C9_bar_shutdown_idempotent.2.2.2 [false] [false, false]⟩

end Headway.probar

namespace Headway.tracker

/-- **C10** (confirmed).  The invariant `Inv` — the smoothed speed is
nonnegative, and a nonzero instantaneous speed implies a strictly positive
smoothed speed (and an in-range value) — holds at construction and is
preserved by `SetProgress` (given that the wall clock does not run
backwards past the anchor, as Go's monotonic `time.Since` guarantees),
`Pause`, `Resume` and `Finish`, the resets included.  Consequently,
whenever `Stats()` returns a snapshot the smoothed speed average is
strictly positive — `(1-value)/speedAverage.Value()` never divides by
zero — and the snapshot's `Speed()` is strictly positive. -/
theorem C10_stats_implies_positive_speed :
    (∀ opts : Opts, Inv (new opts)) ∧
    (∀ (t : Tracker) (now : ℤ) (v : ℚ), Inv t →
      (∀ lm, t.lastMeasurement = some lm → lm.time ≤ now) →
      Inv (t.setProgress now v)) ∧
    (∀ t : Tracker, Inv t.pause ∧ Inv t.resume) ∧
    (∀ (t : Tracker) (now : ℤ), Inv t → Inv (t.finish now).state) ∧
    (∀ (t : Tracker) (st : Stats), Inv t → t.stats = some st →
      0 < t.speedAverage.value ∧ 0 < st.speed) := by
  refine ⟨Inv_new, fun t now v h hm => Inv_setProgress now v h hm,
    fun t => ⟨Inv_pause t, Inv_resume t⟩, fun t now h => Inv_finish now h,
    fun t st h hst => ?_⟩
  obtain ⟨hs, _, hsp, _, _⟩ := stats_some hst
  have hpos := (h.2 hs).1
  refine ⟨hpos, ?_⟩
  rw [hsp]
  exact hpos

/-- Witness for `C10_stats_implies_positive_speed` at the concrete
tracker `run2` and its snapshot. -/
theorem C10_stats_implies_positive_speed_witness :
    0 < run2.speedAverage.value ∧
    0 < (Stats.mk (1 / 10) (1 / 10) (some 9000000000) none).speed :=
  C10_stats_implies_positive_speed.2.2.2.2 run2
    (Stats.mk (1 / 10) (1 / 10) (some 9000000000) none) Inv_run2 run2_stats

end Headway.tracker
